import Mathlib

/-!
Verification of the Youtube-to-Doc video-data acquisition pipeline.

This file is a shallow embedding, in Lean 4, of the core of the
Youtube-to-Doc repository:

* `src/youtubedoc/utils/youtube_url_validator.py` — URL validation and
  video-id extraction (`YouTubeURLValidator`);
* `src/youtubedoc/schemas/video_schema.py` — the `VideoQuery` schema and
  its validators;
* `src/youtubedoc/youtube_processor.py` — `YoutubeProcessor` with the
  metadata provider chain, the transcript fallback ladder with
  truncation, and the comments placeholder;
* `src/server/query_processor.py` — the synchronous processing path and
  its outer error boundary;
* `src/server/routers/dynamic.py` — the streaming (SSE) event generator.

Python strings are modelled as `List Char`; Python `None`/exceptions are
modelled with `Option`/`Except`.  External provider calls (yt-dlp,
pytube, youtube-transcript-api, boto3) are modelled as environment
records holding each call's outcome, so the control flow of the
repository code around those calls is embedded faithfully.
-/

/-- Characters of a string literal, the model of a Python `str` value. -/
def strL (s : String) : List Char := s.data

/-! ## Character classes and basic string utilities -/

/-- The character class `[a-zA-Z0-9_-]` used for YouTube video ids. -/
def isIdChar (c : Char) : Bool := c.isAlpha || c.isDigit || c == '-' || c == '_'

/-- `YouTubeURLValidator._is_valid_video_id`: exactly 11 characters,
all from `[a-zA-Z0-9_-]`. -/
def validId (s : List Char) : Bool := s.length == 11 && s.all isIdChar

/-- Python `str.startswith` on character lists (also the core of
regex literal matching at a fixed position). -/
def lstartsWith : List Char → List Char → Bool
  | [], _ => true
  | _ :: _, [] => false
  | a :: as, b :: bs => (a == b) && lstartsWith as bs

/-- Suffix test, used for Python `str.endswith`. -/
def lendsWith (suf s : List Char) : Bool := lstartsWith suf.reverse s.reverse

/-- Substring containment, the model of Python `needle in hay`. -/
def containsSub (needle : List Char) : List Char → Bool
  | [] => needle.isEmpty
  | c :: rest => lstartsWith needle (c :: rest) || containsSub needle rest

/-- Python `str.strip()` (whitespace from both ends). -/
def pyStrip (s : List Char) : List Char :=
  ((s.dropWhile Char.isWhitespace).reverse.dropWhile Char.isWhitespace).reverse

/-- Python `str.lower()` (ASCII case folding suffices here). -/
def lowerStr (s : List Char) : List Char := s.map Char.toLower

/-! ## Regex search for the `URL_PATTERNS` of `YouTubeURLValidator`

Each pattern in `URL_PATTERNS` has the shape
`(?:https?://)?(?:www\.)?CORE([a-zA-Z0-9_-]{11})` (the mobile pattern
uses `m\.` instead of `www\.`).  `re.search` scans start positions left
to right; at a position the optional groups are tried in backtracking
order (scheme present before absent, `https` before `http`, `www.`/`m.`
present before absent).  At any single position at most one of those
literal prefix alternatives can match (their first characters and the
cores' first characters are pairwise incompatible continuations), so
committing to the first alternative whose literal part matches is
faithful to the regex semantics. -/

/-- Capture group `([a-zA-Z0-9_-]{11})`: exactly 11 id characters must
follow; the match consumes the first 11. -/
def grabId (s : List Char) : Option (List Char) :=
  if validId (s.take 11) then some (s.take 11) else none

/-- Try the literal prefix alternatives of one pattern at a fixed
position. -/
def tryPrefixes (core : List Char) : List (List Char) → List Char → Option (List Char)
  | [], _ => none
  | p :: ps, s =>
    if lstartsWith (p ++ core) s then grabId (s.drop (p.length + core.length))
    else tryPrefixes core ps s

/-- `re.search` for one pattern: scan start positions left to right. -/
def searchPat (core : List Char) (pres : List (List Char)) : List Char → Option (List Char)
  | [] => none
  | c :: rest =>
    match tryPrefixes core pres (c :: rest) with
    | some v => some v
    | none => searchPat core pres rest

/-- Prefix alternatives of `(?:https?://)?(?:www\.)?` in backtracking
order. -/
def stdAlts : List (List Char) :=
  [strL "https://www.", strL "https://", strL "http://www.", strL "http://", strL "www.", []]

/-- Prefix alternatives of `(?:https?://)?(?:m\.)?` in backtracking
order (mobile pattern). -/
def mobAlts : List (List Char) :=
  [strL "https://m.", strL "https://", strL "http://m.", strL "http://", strL "m.", []]

/-- Literal core of the standard-watch pattern. -/
def watchCore : List Char := strL "youtube.com/watch?v="

/-- Literal core of the shortened-URL pattern. -/
def shortCore : List Char := strL "youtu.be/"

/-- Literal core of the embed pattern. -/
def embedCore : List Char := strL "youtube.com/embed/"

/-- Literal core of the direct-video pattern. -/
def vCore : List Char := strL "youtube.com/v/"

/-! ## `urllib.parse` fallback used by `extract_video_id` -/

/-- Characters allowed in a URL scheme after the first letter. -/
def schemeChar (c : Char) : Bool :=
  c.isAlpha || c.isDigit || c == '+' || c == '-' || c == '.'

/-- Whether a nonempty prefix before `:` is a valid scheme. -/
def isScheme : List Char → Bool
  | [] => false
  | c :: cs => c.isAlpha && cs.all schemeChar

/-- Drop a leading `scheme:` if present (as `urlsplit` does). -/
def splitScheme (s : List Char) : List Char :=
  match s.findIdx? (· == ':') with
  | some i => if isScheme (s.take i) then s.drop (i + 1) else s
  | none => s

/-- Split off the netloc after a leading `//` (as `urlsplit` does);
returns `(netloc, rest)`. -/
def splitNetloc (s : List Char) : List Char × List Char :=
  if lstartsWith (strL "//") s then
    let t := s.drop 2
    let n := t.takeWhile (fun c => !(c == '/' || c == '?' || c == '#'))
    (n, t.drop n.length)
  else ([], s)

/-- Model of `urllib.parse.urlparse` restricted to the components the
repository reads: `(netloc, path, query)`. -/
def pyUrlparse (s : List Char) : List Char × List Char × List Char :=
  let rest := splitScheme s
  let (netloc, rest2) := splitNetloc rest
  let noFrag := rest2.takeWhile (· ≠ '#')
  let path := noFrag.takeWhile (· ≠ '?')
  let query := (noFrag.dropWhile (· ≠ '?')).drop 1
  (netloc, path, query)

/-- `parse_qs(query).get("v", [None])[0]`: the first `v=`-pair with a
nonempty value (blank values are dropped by `parse_qs`; percent decoding
is omitted — it is the identity on the id alphabet). -/
def qsGetV (q : List Char) : Option (List Char) :=
  (q.splitOn '&').findSome? fun c =>
    if lstartsWith (strL "v=") c && c.drop 2 ≠ [] then some (c.drop 2) else none

/-- The `urlparse`-based fallback branch of
`YouTubeURLValidator.extract_video_id`, on the parsed components. -/
def fallbackFrom (netloc path query : List Char) : Option (List Char) :=
  if lendsWith (strL "youtube.com") netloc && path == strL "/watch" then
    match qsGetV query with
    | some v => if validId v then some v else none
    | none => none
  else if netloc == strL "youtu.be" && path ≠ [] then
    if validId ((path.dropWhile (· == '/')).takeWhile (· ≠ '?')) then
      some ((path.dropWhile (· == '/')).takeWhile (· ≠ '?'))
    else none
  else none

/-- The `urlparse`-based fallback branch of
`YouTubeURLValidator.extract_video_id`. -/
def urlparseFallback (u : List Char) : Option (List Char) :=
  fallbackFrom (pyUrlparse u).1 (pyUrlparse u).2.1 (pyUrlparse u).2.2

/-- The regex-pattern cascade of `extract_video_id` on the stripped
input, ending in the `urlparse` fallback. -/
def extractFromStripped (u : List Char) : Option (List Char) :=
  match searchPat watchCore stdAlts u with
  | some v => some v
  | none =>
    match searchPat shortCore stdAlts u with
    | some v => some v
    | none =>
      match searchPat embedCore stdAlts u with
      | some v => some v
      | none =>
        match searchPat vCore stdAlts u with
        | some v => some v
        | none =>
          match searchPat watchCore mobAlts u with
          | some v => some v
          | none => urlparseFallback u

/-- `YouTubeURLValidator.extract_video_id`: empty input is rejected, the
input is stripped, the five regex patterns are tried in order, then the
`urlparse` fallback. -/
def extractVideoId (url : List Char) : Option (List Char) :=
  if url = [] then none else extractFromStripped (pyStrip url)

/-- `YouTubeURLValidator.is_valid_youtube_url`. -/
def isValidYoutubeUrl (url : List Char) : Bool := (extractVideoId url).isSome

/-- `YouTubeURLValidator.normalize_youtube_url`. -/
def normalizeYoutubeUrl (url : List Char) : Option (List Char) :=
  match extractVideoId url with
  | some v => some (strL "https://www.youtube.com/watch?v=" ++ v)
  | none => none

/-! ## Basic lemmas about the regex search -/

theorem grabId_valid {s v : List Char} (h : grabId s = some v) : validId v = true := by
  unfold grabId at h
  split at h
  · cases h; assumption
  · cases h

theorem tryPrefixes_valid {core : List Char} {pres : List (List Char)} {s v : List Char}
    (h : tryPrefixes core pres s = some v) : validId v = true := by
  induction pres with
  | nil => cases h
  | cons p ps ih =>
    unfold tryPrefixes at h
    split at h
    · exact grabId_valid h
    · exact ih h

theorem searchPat_valid {core : List Char} {pres : List (List Char)} {s v : List Char}
    (h : searchPat core pres s = some v) : validId v = true := by
  induction s with
  | nil => cases h
  | cons c rest ih =>
    unfold searchPat at h
    split at h
    · rename_i heq
      cases h
      exact tryPrefixes_valid heq
    · exact ih h

theorem fallbackFrom_valid {netloc path query v : List Char}
    (h : fallbackFrom netloc path query = some v) : validId v = true := by
  unfold fallbackFrom at h
  split at h
  · split at h
    · split at h
      · cases h; assumption
      · cases h
    · cases h
  · split at h
    · split at h
      · cases h; assumption
      · cases h
    · cases h

theorem urlparseFallback_valid {u v : List Char} (h : urlparseFallback u = some v) :
    validId v = true := fallbackFrom_valid h

theorem extractFromStripped_valid {u v : List Char} (h : extractFromStripped u = some v) :
    validId v = true := by
  unfold extractFromStripped at h
  split at h
  · rename_i heq; cases h; exact searchPat_valid heq
  · split at h
    · rename_i heq; cases h; exact searchPat_valid heq
    · split at h
      · rename_i heq; cases h; exact searchPat_valid heq
      · split at h
        · rename_i heq; cases h; exact searchPat_valid heq
        · split at h
          · rename_i heq; cases h; exact searchPat_valid heq
          · exact urlparseFallback_valid h

/-- Every id returned by `extract_video_id` passes `_is_valid_video_id`. -/
theorem extractVideoId_valid {u v : List Char} (h : extractVideoId u = some v) :
    validId v = true := by
  unfold extractVideoId at h
  split at h
  · cases h
  · exact extractFromStripped_valid h

theorem lstartsWith_all {P : Char → Bool} {x y : List Char}
    (h : lstartsWith x y = true) (hy : y.all P = true) : x.all P = true := by
  induction x generalizing y with
  | nil => rfl
  | cons a as ih =>
    cases y with
    | nil => cases h
    | cons b bs =>
      unfold lstartsWith at h
      rw [Bool.and_eq_true] at h
      have hab : a = b := by
        have := h.1; simpa using this
      rw [List.all_cons, Bool.and_eq_true] at hy ⊢
      exact ⟨hab ▸ hy.1, ih h.2 hy.2⟩

theorem lstartsWith_length {x y : List Char} (h : lstartsWith x y = true) :
    x.length ≤ y.length := by
  induction x generalizing y with
  | nil => simp
  | cons a as ih =>
    cases y with
    | nil => cases h
    | cons b bs =>
      unfold lstartsWith at h
      rw [Bool.and_eq_true] at h
      simpa using ih h.2

theorem lstartsWith_restrict {x y z : List Char} (hlen : x.length ≤ y.length)
    (h : lstartsWith x (y ++ z) = true) : lstartsWith x y = true := by
  induction x generalizing y with
  | nil => rfl
  | cons a as ih =>
    cases y with
    | nil => simp at hlen
    | cons b bs =>
      rw [List.cons_append] at h
      unfold lstartsWith at h ⊢
      rw [Bool.and_eq_true] at h ⊢
      exact ⟨h.1, ih (by simpa using hlen) h.2⟩

/-- A literal whose last character is outside the id alphabet cannot
match so far to the right that it sticks out into an all-id tail. -/
theorem lstartsWith_append_id {x s t : List Char}
    (h : lstartsWith x (s ++ t) = true) (ht : t.all isIdChar = true)
    (hlast : ∃ c, x.getLast? = some c ∧ isIdChar c = false) :
    x.length ≤ s.length := by
  induction x generalizing s with
  | nil => simp
  | cons a as ih =>
    cases s with
    | nil =>
      exfalso
      obtain ⟨c, hc, hcbad⟩ := hlast
      have hall : (a :: as).all isIdChar = true := lstartsWith_all (by simpa using h) ht
      have hmem : c ∈ a :: as := List.mem_of_mem_getLast? hc
      rw [List.all_eq_true] at hall
      rw [hall c hmem] at hcbad
      cases hcbad
    | cons b bs =>
      cases as with
      | nil => simp
      | cons a2 as2 =>
        rw [List.cons_append] at h
        unfold lstartsWith at h
        rw [Bool.and_eq_true] at h
        have hlast' : ∃ c, (a2 :: as2).getLast? = some c ∧ isIdChar c = false := by
          obtain ⟨c, hc, hcbad⟩ := hlast
          exact ⟨c, by simpa [List.getLast?] using hc, hcbad⟩
        have := ih h.2 hlast'
        simpa using Nat.succ_le_succ this

theorem tryPrefixes_none_of_false {core : List Char} {pres : List (List Char)} {s : List Char}
    (h : ∀ p ∈ pres, lstartsWith (p ++ core) s = false) :
    tryPrefixes core pres s = none := by
  induction pres with
  | nil => rfl
  | cons p ps ih =>
    unfold tryPrefixes
    rw [h p (List.mem_cons_self _ _), if_neg (by simp)]
    exact ih fun q hq => h q (List.mem_cons_of_mem _ hq)

/-- A pattern whose core ends in a non-id character matches nothing
inside a string of id characters. -/
theorem alts_not_allId {core : List Char}
    (hlast : ∃ c, core.getLast? = some c ∧ isIdChar c = false) (p : List Char) :
    (p ++ core).all isIdChar = false := by
  obtain ⟨c, hc, hcbad⟩ := hlast
  by_contra hne
  rw [Bool.not_eq_false, List.all_append, Bool.and_eq_true] at hne
  have hmem : c ∈ core := List.mem_of_mem_getLast? hc
  have h2 : core.all isIdChar = true := hne.2
  rw [List.all_eq_true] at h2
  rw [h2 c hmem] at hcbad
  cases hcbad

theorem searchPat_allId {core : List Char} {pres : List (List Char)} {s : List Char}
    (hs : s.all isIdChar = true)
    (hlast : ∃ c, core.getLast? = some c ∧ isIdChar c = false) :
    searchPat core pres s = none := by
  induction s with
  | nil => rfl
  | cons c rest ih =>
    unfold searchPat
    rw [List.all_cons, Bool.and_eq_true] at hs
    have htry : tryPrefixes core pres (c :: rest) = none := by
      refine tryPrefixes_none_of_false fun p _ => ?_
      by_contra hne
      rw [Bool.not_eq_false] at hne
      have hall : (p ++ core).all isIdChar = true :=
        lstartsWith_all hne (by rw [List.all_cons, Bool.and_eq_true]; exact hs)
      rw [alts_not_allId hlast p] at hall
      cases hall
    rw [htry]
    exact ih hs.2

/-- Decidable certificate: none of the pattern's literal alternatives
matches at any start position of the (concrete) list `a`. -/
def noLitMatch (core : List Char) (pres : List (List Char)) : List Char → Bool
  | [] => true
  | c :: rest =>
    pres.all (fun p => !(lstartsWith (p ++ core) (c :: rest))) && noLitMatch core pres rest

/-- Master failure lemma: if the literal part of a pattern (whose core
ends in a non-id character) matches at no position of `a`, then the
regex search fails on `a ++ idl` for any all-id tail `idl`. -/
theorem searchPat_append_none {core : List Char} {pres : List (List Char)} {a idl : List Char}
    (hlast : ∃ c, core.getLast? = some c ∧ isIdChar c = false)
    (hid : idl.all isIdChar = true)
    (hno : noLitMatch core pres a = true) :
    searchPat core pres (a ++ idl) = none := by
  induction a with
  | nil => exact searchPat_allId hid hlast
  | cons c rest ih =>
    unfold noLitMatch at hno
    rw [Bool.and_eq_true, List.all_eq_true] at hno
    rw [List.cons_append]
    unfold searchPat
    have htry : tryPrefixes core pres (c :: (rest ++ idl)) = none := by
      refine tryPrefixes_none_of_false fun p hp => ?_
      by_contra hne
      rw [Bool.not_eq_false] at hne
      rw [← List.cons_append] at hne
      have hplen : (p ++ core).length ≤ (c :: rest).length := by
        refine lstartsWith_append_id hne hid ?_
        obtain ⟨d, hd, hdbad⟩ := hlast
        have hcne : core ≠ [] := by intro hc; rw [hc] at hd; cases hd
        exact ⟨d, by rw [List.getLast?_append_of_ne_nil _ hcne]; exact hd, hdbad⟩
      have := lstartsWith_restrict hplen hne
      have hfalse := hno.1 p hp
      rw [this] at hfalse
      cases hfalse
    rw [htry]
    exact ih hno.2

/-- Single-position failure lemma, used to step the search over the
leading characters of the mobile URL form. -/
theorem tryPrefixes_append_none {core : List Char} {pres : List (List Char)} {s idl : List Char}
    (hlast : ∃ c, core.getLast? = some c ∧ isIdChar c = false)
    (hid : idl.all isIdChar = true)
    (h : ∀ p ∈ pres, lstartsWith (p ++ core) s = false) :
    tryPrefixes core pres (s ++ idl) = none := by
  refine tryPrefixes_none_of_false fun p hp => ?_
  by_contra hne
  rw [Bool.not_eq_false] at hne
  have hplen : (p ++ core).length ≤ s.length := by
    refine lstartsWith_append_id hne hid ?_
    obtain ⟨d, hd, hdbad⟩ := hlast
    have hcne : core ≠ [] := by intro hc; rw [hc] at hd; cases hd
    exact ⟨d, by rw [List.getLast?_append_of_ne_nil _ hcne]; exact hd, hdbad⟩
  have := lstartsWith_restrict hplen hne
  have hfalse := h p hp
  rw [this] at hfalse
  cases hfalse

theorem lstartsWith_append_self (x y : List Char) : lstartsWith x (x ++ y) = true := by
  induction x with
  | nil => rfl
  | cons a as ih => unfold lstartsWith; rw [List.cons_append]; simp [ih]

/-- Success lemma: at a position where the string is exactly one of the
literal alternatives followed by the core and then a valid id, the
pattern matches and captures the id (provided no earlier alternative's
literal part matches there). -/
theorem tryPrefixes_append_some {core p : List Char} {presA presB : List (List Char)}
    {idl : List Char}
    (hA : ∀ q ∈ presA, lstartsWith (q ++ core) ((p ++ core) ++ idl) = false)
    (hv : validId idl = true) :
    tryPrefixes core (presA ++ p :: presB) ((p ++ core) ++ idl) = some idl := by
  induction presA with
  | nil =>
    rw [List.nil_append]
    unfold tryPrefixes
    rw [if_pos (by rw [lstartsWith_append_self])]
    have hdrop : ((p ++ core) ++ idl).drop (p.length + core.length) = idl := by
      rw [← List.length_append, List.drop_left]
    rw [hdrop]
    unfold grabId
    have hlen : idl.length = 11 := by
      unfold validId at hv
      rw [Bool.and_eq_true, beq_iff_eq] at hv
      exact hv.1
    rw [List.take_of_length_le (by rw [hlen]), if_pos hv]
  | cons q presA' ih =>
    rw [List.cons_append]
    unfold tryPrefixes
    rw [hA q (List.mem_cons_self _ _), if_neg (by simp)]
    exact ih fun r hr => hA r (List.mem_cons_of_mem _ hr)

theorem searchPat_of_tryPrefixes_some {core : List Char} {pres : List (List Char)}
    {s v : List Char} (hs : s ≠ []) (h : tryPrefixes core pres s = some v) :
    searchPat core pres s = some v := by
  cases s with
  | nil => exact absurd rfl hs
  | cons c rest => unfold searchPat; rw [h]

theorem searchPat_cons_of_none {core : List Char} {pres : List (List Char)}
    {c : Char} {rest : List Char} (h : tryPrefixes core pres (c :: rest) = none) :
    searchPat core pres (c :: rest) = searchPat core pres rest := by
  conv_lhs => unfold searchPat
  rw [h]

/-! ## Whitespace and stripping lemmas -/

theorem ws_not_idChar {c : Char} (h : c.isWhitespace = true) : isIdChar c = false := by
  have : c = ' ' ∨ c = '\t' ∨ c = '\r' ∨ c = '\n' := by
    simp [Char.isWhitespace] at h; tauto
  rcases this with h' | h' | h' | h' <;> subst h' <;> decide

theorem idChar_not_ws {c : Char} (h : isIdChar c = true) : c.isWhitespace = false := by
  by_contra hne
  rw [Bool.not_eq_false] at hne
  rw [ws_not_idChar hne] at h
  cases h

theorem dropWhile_eq_self_of_head {p : Char → Bool} {l : List Char}
    (h : ∀ c ∈ l, p c = false) : l.dropWhile p = l := by
  cases l with
  | nil => rfl
  | cons c cs =>
    rw [List.dropWhile_cons, if_neg]
    simp [h c (List.mem_cons_self _ _)]

theorem pyStrip_eq_self {l : List Char} (h : ∀ c ∈ l, c.isWhitespace = false) :
    pyStrip l = l := by
  unfold pyStrip
  rw [dropWhile_eq_self_of_head h]
  rw [dropWhile_eq_self_of_head fun c hc => h c (List.mem_reverse.mp hc)]
  exact List.reverse_reverse l

theorem validId_all {idl : List Char} (h : validId idl = true) : idl.all isIdChar = true := by
  unfold validId at h
  rw [Bool.and_eq_true] at h
  exact h.2

theorem validId_len {idl : List Char} (h : validId idl = true) : idl.length = 11 := by
  unfold validId at h
  rw [Bool.and_eq_true, beq_iff_eq] at h
  exact h.1

theorem strip_form {a idl : List Char} (ha : ∀ c ∈ a, c.isWhitespace = false)
    (hid : idl.all isIdChar = true) : pyStrip (a ++ idl) = a ++ idl := by
  refine pyStrip_eq_self fun c hc => ?_
  rcases List.mem_append.mp hc with h' | h'
  · exact ha c h'
  · rw [List.all_eq_true] at hid
    exact idChar_not_ws (hid c h')

theorem append_id_ne_nil {a idl : List Char} (ha : a ≠ []) : a ++ idl ≠ [] :=
  fun hc => absurd (List.append_eq_nil.mp hc).1 ha

/-- A pattern literal (with non-id last character) that fails on the
concrete part also fails when an all-id tail is appended. -/
theorem lstartsWith_append_false {x s idl : List Char}
    (hlast : ∃ c, x.getLast? = some c ∧ isIdChar c = false)
    (hid : idl.all isIdChar = true)
    (hconc : lstartsWith x s = false) :
    lstartsWith x (s ++ idl) = false := by
  by_contra hne
  rw [Bool.not_eq_false] at hne
  have hlen := lstartsWith_append_id hne hid hlast
  rw [lstartsWith_restrict hlen hne] at hconc
  cases hconc

theorem all_lstartsWith_append_false {pres : List (List Char)} {core s idl : List Char}
    (hlast : ∃ c, core.getLast? = some c ∧ isIdChar c = false)
    (hid : idl.all isIdChar = true)
    (hconc : ∀ q ∈ pres, lstartsWith (q ++ core) s = false) :
    ∀ q ∈ pres, lstartsWith (q ++ core) (s ++ idl) = false := by
  intro q hq
  refine lstartsWith_append_false ?_ hid (hconc q hq)
  obtain ⟨d, hd, hdbad⟩ := hlast
  have hcne : core ≠ [] := by intro hc; rw [hc] at hd; cases hd
  exact ⟨d, by rw [List.getLast?_append_of_ne_nil _ hcne]; exact hd, hdbad⟩

theorem watch_last : ∃ c, watchCore.getLast? = some c ∧ isIdChar c = false :=
  ⟨'=', by decide, by decide⟩

theorem short_last : ∃ c, shortCore.getLast? = some c ∧ isIdChar c = false :=
  ⟨'/', by decide, by decide⟩

theorem embed_last : ∃ c, embedCore.getLast? = some c ∧ isIdChar c = false :=
  ⟨'/', by decide, by decide⟩

theorem v_last : ∃ c, vCore.getLast? = some c ∧ isIdChar c = false :=
  ⟨'/', by decide, by decide⟩

/-! ## Extraction succeeds on each canonical URL form -/

theorem searchPat_cons_append {core : List Char} {pres : List (List Char)}
    {c : Char} {a idl : List Char}
    (h : tryPrefixes core pres ((c :: a) ++ idl) = none) :
    searchPat core pres ((c :: a) ++ idl) = searchPat core pres (a ++ idl) := by
  rw [List.cons_append] at h ⊢
  exact searchPat_cons_of_none h

/-- A pattern with the standard alternatives matches at the head of
`core ++ idl` via the empty alternative and captures the id. -/
theorem searchPat_stdAlts_head {core idl : List Char}
    (hlast : ∃ c, core.getLast? = some c ∧ isIdChar c = false)
    (hv : validId idl = true)
    (hconc : ∀ q ∈ [strL "https://www.", strL "https://", strL "http://www.",
        strL "http://", strL "www."], lstartsWith (q ++ core) ([] ++ core) = false) :
    searchPat core stdAlts (core ++ idl) = some idl := by
  have hcne : core ≠ [] := by
    obtain ⟨d, hd, _⟩ := hlast
    intro hc; rw [hc] at hd; cases hd
  have h1 : tryPrefixes core
      ([strL "https://www.", strL "https://", strL "http://www.", strL "http://",
        strL "www."] ++ ([] : List Char) :: [])
      (([] ++ core) ++ idl) = some idl :=
    tryPrefixes_append_some (all_lstartsWith_append_false hlast (validId_all hv) hconc) hv
  have h2 : tryPrefixes core stdAlts (core ++ idl) = some idl := h1
  exact searchPat_of_tryPrefixes_some (append_id_ne_nil hcne) h2

theorem extract_watch_form {idl : List Char} (h : validId idl = true) :
    extractVideoId (strL "youtube.com/watch?v=" ++ idl) = some idl := by
  have hid := validId_all h
  show extractVideoId (watchCore ++ idl) = some idl
  have hne : watchCore ++ idl ≠ [] := append_id_ne_nil (by decide)
  have hstrip : pyStrip (watchCore ++ idl) = watchCore ++ idl := strip_form (by decide) hid
  have hs : searchPat watchCore stdAlts (watchCore ++ idl) = some idl :=
    searchPat_stdAlts_head watch_last h (by decide)
  unfold extractVideoId
  rw [if_neg hne, hstrip]
  unfold extractFromStripped
  rw [hs]

theorem extract_short_form {idl : List Char} (h : validId idl = true) :
    extractVideoId (strL "youtu.be/" ++ idl) = some idl := by
  have hid := validId_all h
  show extractVideoId (shortCore ++ idl) = some idl
  have hne : shortCore ++ idl ≠ [] := append_id_ne_nil (by decide)
  have hstrip : pyStrip (shortCore ++ idl) = shortCore ++ idl := strip_form (by decide) hid
  have hf1 : searchPat watchCore stdAlts (shortCore ++ idl) = none :=
    searchPat_append_none watch_last hid (by decide)
  have hs : searchPat shortCore stdAlts (shortCore ++ idl) = some idl :=
    searchPat_stdAlts_head short_last h (by decide)
  unfold extractVideoId
  rw [if_neg hne, hstrip]
  unfold extractFromStripped
  rw [hf1, hs]

theorem extract_embed_form {idl : List Char} (h : validId idl = true) :
    extractVideoId (strL "youtube.com/embed/" ++ idl) = some idl := by
  have hid := validId_all h
  show extractVideoId (embedCore ++ idl) = some idl
  have hne : embedCore ++ idl ≠ [] := append_id_ne_nil (by decide)
  have hstrip : pyStrip (embedCore ++ idl) = embedCore ++ idl := strip_form (by decide) hid
  have hf1 : searchPat watchCore stdAlts (embedCore ++ idl) = none :=
    searchPat_append_none watch_last hid (by decide)
  have hf2 : searchPat shortCore stdAlts (embedCore ++ idl) = none :=
    searchPat_append_none short_last hid (by decide)
  have hs : searchPat embedCore stdAlts (embedCore ++ idl) = some idl :=
    searchPat_stdAlts_head embed_last h (by decide)
  unfold extractVideoId
  rw [if_neg hne, hstrip]
  unfold extractFromStripped
  rw [hf1, hf2, hs]

theorem extract_v_form {idl : List Char} (h : validId idl = true) :
    extractVideoId (strL "youtube.com/v/" ++ idl) = some idl := by
  have hid := validId_all h
  show extractVideoId (vCore ++ idl) = some idl
  have hne : vCore ++ idl ≠ [] := append_id_ne_nil (by decide)
  have hstrip : pyStrip (vCore ++ idl) = vCore ++ idl := strip_form (by decide) hid
  have hf1 : searchPat watchCore stdAlts (vCore ++ idl) = none :=
    searchPat_append_none watch_last hid (by decide)
  have hf2 : searchPat shortCore stdAlts (vCore ++ idl) = none :=
    searchPat_append_none short_last hid (by decide)
  have hf3 : searchPat embedCore stdAlts (vCore ++ idl) = none :=
    searchPat_append_none embed_last hid (by decide)
  have hs : searchPat vCore stdAlts (vCore ++ idl) = some idl :=
    searchPat_stdAlts_head v_last h (by decide)
  unfold extractVideoId
  rw [if_neg hne, hstrip]
  unfold extractFromStripped
  rw [hf1, hf2, hf3, hs]

theorem extract_mobile_form {idl : List Char} (h : validId idl = true) :
    extractVideoId (strL "m.youtube.com/watch?v=" ++ idl) = some idl := by
  have hid := validId_all h
  show extractVideoId (('m' :: '.' :: watchCore) ++ idl) = some idl
  have hne : ('m' :: '.' :: watchCore) ++ idl ≠ [] := append_id_ne_nil (by simp)
  have hstrip : pyStrip (('m' :: '.' :: watchCore) ++ idl) = ('m' :: '.' :: watchCore) ++ idl :=
    strip_form (by decide) hid
  have hstep0 : tryPrefixes watchCore stdAlts (('m' :: '.' :: watchCore) ++ idl) = none :=
    tryPrefixes_append_none watch_last hid (by decide)
  have hstep1 : tryPrefixes watchCore stdAlts (('.' :: watchCore) ++ idl) = none :=
    tryPrefixes_append_none watch_last hid (by decide)
  have hs : searchPat watchCore stdAlts (('m' :: '.' :: watchCore) ++ idl) = some idl := by
    rw [searchPat_cons_append hstep0, searchPat_cons_append hstep1]
    exact searchPat_stdAlts_head watch_last h (by decide)
  unfold extractVideoId
  rw [if_neg hne, hstrip]
  unfold extractFromStripped
  rw [hs]

/-- Extraction on the canonical normalized URL form
`https://www.youtube.com/watch?v={id}` recovers the id. -/
theorem extract_canonical_form {idl : List Char} (h : validId idl = true) :
    extractVideoId (strL "https://www.youtube.com/watch?v=" ++ idl) = some idl := by
  have hid := validId_all h
  show extractVideoId ((strL "https://www." ++ watchCore) ++ idl) = some idl
  have hne : (strL "https://www." ++ watchCore) ++ idl ≠ [] := append_id_ne_nil (by decide)
  have hstrip : pyStrip ((strL "https://www." ++ watchCore) ++ idl) =
      (strL "https://www." ++ watchCore) ++ idl := strip_form (by decide) hid
  have h1 : tryPrefixes watchCore
      (([] : List (List Char)) ++ (strL "https://www.") ::
        [strL "https://", strL "http://www.", strL "http://", strL "www.", ([] : List Char)])
      ((strL "https://www." ++ watchCore) ++ idl) = some idl :=
    tryPrefixes_append_some (fun q hq => absurd hq (List.not_mem_nil q)) h
  have hs : searchPat watchCore stdAlts ((strL "https://www." ++ watchCore) ++ idl) = some idl :=
    searchPat_of_tryPrefixes_some (append_id_ne_nil (by decide)) h1
  unfold extractVideoId
  rw [if_neg hne, hstrip]
  unfold extractFromStripped
  rw [hs]

/-- C8: for every 11-character token over `[a-zA-Z0-9_-]`,
`YouTubeURLValidator.extract_video_id` returns that token on the
standard watch, short-link, embed, direct-video and mobile-subdomain
URL forms built from it (format invariance of the validator). -/
theorem urlValidator_format_invariance (idl : List Char) (h : validId idl = true) :
    extractVideoId (strL "youtube.com/watch?v=" ++ idl) = some idl ∧
    extractVideoId (strL "youtu.be/" ++ idl) = some idl ∧
    extractVideoId (strL "youtube.com/embed/" ++ idl) = some idl ∧
    extractVideoId (strL "youtube.com/v/" ++ idl) = some idl ∧
    extractVideoId (strL "m.youtube.com/watch?v=" ++ idl) = some idl :=
  ⟨extract_watch_form h, extract_short_form h, extract_embed_form h,
    extract_v_form h, extract_mobile_form h⟩

theorem urlValidator_format_invariance_witness :
    extractVideoId (strL "youtube.com/watch?v=" ++ strL "dQw4w9WgXcQ") = some (strL "dQw4w9WgXcQ") ∧
    extractVideoId (strL "youtu.be/" ++ strL "dQw4w9WgXcQ") = some (strL "dQw4w9WgXcQ") ∧
    extractVideoId (strL "youtube.com/embed/" ++ strL "dQw4w9WgXcQ") = some (strL "dQw4w9WgXcQ") ∧
    extractVideoId (strL "youtube.com/v/" ++ strL "dQw4w9WgXcQ") = some (strL "dQw4w9WgXcQ") ∧
    extractVideoId (strL "m.youtube.com/watch?v=" ++ strL "dQw4w9WgXcQ") = some (strL "dQw4w9WgXcQ") :=
  urlValidator_format_invariance (strL "dQw4w9WgXcQ") (by decide)

/-- C10: whenever `extract_video_id` succeeds on `u`,
`normalize_youtube_url u` is the canonical watch URL for the extracted
id, extraction on that canonical URL returns the same id (round trip),
and normalization is idempotent; whenever extraction fails,
normalization returns `None`. -/
theorem normalize_roundtrip (u : List Char) :
    (∀ idl, extractVideoId u = some idl →
      normalizeYoutubeUrl u = some (strL "https://www.youtube.com/watch?v=" ++ idl) ∧
      extractVideoId (strL "https://www.youtube.com/watch?v=" ++ idl) = some idl ∧
      normalizeYoutubeUrl (strL "https://www.youtube.com/watch?v=" ++ idl) =
        normalizeYoutubeUrl u) ∧
    (extractVideoId u = none → normalizeYoutubeUrl u = none) := by
  constructor
  · intro idl hx
    have hv := extractVideoId_valid hx
    have hcan := extract_canonical_form hv
    refine ⟨?_, hcan, ?_⟩
    · unfold normalizeYoutubeUrl; rw [hx]
    · unfold normalizeYoutubeUrl; rw [hx, hcan]
  · intro hx; unfold normalizeYoutubeUrl; rw [hx]

theorem normalize_roundtrip_witness :
    normalizeYoutubeUrl (strL "youtu.be/dQw4w9WgXcQ") =
      some (strL "https://www.youtube.com/watch?v=" ++ strL "dQw4w9WgXcQ") ∧
    extractVideoId (strL "https://www.youtube.com/watch?v=" ++ strL "dQw4w9WgXcQ") =
      some (strL "dQw4w9WgXcQ") ∧
    normalizeYoutubeUrl (strL "https://www.youtube.com/watch?v=" ++ strL "dQw4w9WgXcQ") =
      normalizeYoutubeUrl (strL "youtu.be/dQw4w9WgXcQ") :=
  (normalize_roundtrip (strL "youtu.be/dQw4w9WgXcQ")).1 (strL "dQw4w9WgXcQ") (by decide)

/-! ## Schemas: `VideoQuery` (src/youtubedoc/schemas/video_schema.py) -/

deriving instance DecidableEq for Except

/-- `VideoQuery` after successful pydantic validation. -/
structure VideoQuery where
  url : List Char
  maxTranscriptLength : Nat
  includeComments : Bool
  language : List Char
deriving DecidableEq

/-- Construction of a `VideoQuery`: the pydantic validators reject a URL
with no extractable video id and a `max_transcript_length` below 100,
before anything else runs. -/
def mkVideoQuery (url : List Char) (maxLen : Nat) (inc : Bool) (lang : List Char) :
    Except (List Char) VideoQuery :=
  if ¬ isValidYoutubeUrl url then .error (strL "Invalid YouTube URL format")
  else if maxLen < 100 then .error (strL "Transcript length must be at least 100 characters")
  else .ok ⟨url, maxLen, inc, lang⟩

/-! ## `YoutubeProcessor` (src/youtubedoc/youtube_processor.py) -/

/-- Video metadata record (the dict produced by `_get_video_info`,
also `VideoInfo` of the schema module). -/
structure VideoInfo where
  title : List Char
  description : List Char
  duration : Int
  viewCount : Option Int
  channel : List Char
  uploadDate : Option (List Char)
  url : List Char
  videoId : List Char
  thumbnailUrl : Option (List Char)
deriving DecidableEq

/-- Outcomes of the two metadata providers: `none` models the library
being unavailable (failed import), `some (.error e)` a raised exception,
`some (.ok info)` a successful extraction. -/
structure MetaEnv where
  ytDlp : Option (Except (List Char) VideoInfo)
  pytube : Option (Except (List Char) VideoInfo)
deriving DecidableEq

/-- The guaranteed placeholder record of `_get_video_info`. -/
def fallbackInfo (videoId url : List Char) : VideoInfo :=
  { title := strL "Video " ++ videoId
  , description := strL "Description not available"
  , duration := 0
  , viewCount := none
  , channel := strL "Unknown Channel"
  , uploadDate := none
  , url := url
  , videoId := videoId
  , thumbnailUrl := some (strL "https://img.youtube.com/vi/" ++ videoId ++
      strL "/maxresdefault.jpg") }

/-- `YoutubeProcessor._get_video_info`: try yt-dlp, fall through to
pytube on unavailability or exception, and finally synthesize the
placeholder record. -/
def getVideoInfo (me : MetaEnv) (videoId url : List Char) : VideoInfo :=
  match me.ytDlp with
  | some (.ok info) => info
  | _ =>
    match me.pytube with
    | some (.ok info) => info
    | _ => fallbackInfo videoId url

/-- One transcript track of a transcript list (`find_*_transcript`
result); fetching its segments may raise. -/
structure TranscriptTrack where
  fetchResult : Except (List Char) (List (List Char))
deriving DecidableEq

/-- Outcomes of the selectors on a fetched transcript list. -/
structure TranscriptListEnv where
  findManual : Except (List Char) TranscriptTrack
  findGenerated : Except (List Char) TranscriptTrack
  findEnglish : Except (List Char) TranscriptTrack
deriving DecidableEq

/-- Environment for `_get_transcript`: availability flags of the
imported packages, the outcome of the direct `fetch`, the outcome of
`list`, and the pure formatter `TextFormatter.format_transcript`. -/
structure TranscriptEnv where
  apiAvailable : Bool
  formatterAvailable : Bool
  fetchDirect : Except (List Char) (List (List Char))
  listTranscripts : Except (List Char) TranscriptListEnv
  format : List (List Char) → List Char

/-- The fixed truncation marker appended by `_get_transcript`. -/
def transcriptMarker : List Char := strL "\n[Transcript truncated...]"

/-- Length bounding of the formatted transcript:
`if max_length and len(formatted_text) > max_length:
formatted_text = formatted_text[:max_length] + "\n[Transcript truncated...]"`. -/
def truncateTranscript (maxLength : Nat) (text : List Char) : List Char :=
  if maxLength ≠ 0 ∧ maxLength < text.length then text.take maxLength ++ transcriptMarker
  else text

/-- Fetch a selected track's segments, format and bound them (`None` if
the fetch raises, via the outer exception handler). -/
def fetchAndFormat (te : TranscriptEnv) (tr : TranscriptTrack) (maxLength : Nat) :
    Option (List Char) :=
  match tr.fetchResult with
  | .ok segs => some (truncateTranscript maxLength (te.format segs))
  | .error _ => none

/-- `YoutubeProcessor._get_transcript`: the fallback ladder — direct
fetch in the requested language; else list the tracks and prefer a
manually created transcript in the requested language, then an
auto-generated one, then any English transcript; every raise at the
last tier is absorbed to `None` by the outer handler. -/
def getTranscript (te : TranscriptEnv) (videoId language : List Char) (maxLength : Nat) :
    Option (List Char) :=
  if ¬ te.apiAvailable then none
  else if ¬ te.formatterAvailable then none
  else
    match te.fetchDirect with
    | .ok segs => some (truncateTranscript maxLength (te.format segs))
    | .error _ =>
      match te.listTranscripts with
      | .error _ => none
      | .ok tl =>
        match tl.findManual with
        | .ok tr => fetchAndFormat te tr maxLength
        | .error _ =>
          match tl.findGenerated with
          | .ok tr => fetchAndFormat te tr maxLength
          | .error _ =>
            match tl.findEnglish with
            | .ok tr => fetchAndFormat te tr maxLength
            | .error _ => none

/-- `YoutubeProcessor._get_comments`: placeholder comments when a
YouTube API key is configured, `None` otherwise. -/
def getComments (hasApiKey : Bool) : Option (List (List Char)) :=
  if hasApiKey then
    some [strL "Great video! Very informative.",
      strL "Thanks for sharing this content.",
      strL "This helped me understand the topic better."]
  else none

/-- `YoutubeProcessor.process_video`: extract the id from the query
(raising if impossible), then metadata, transcript, and optionally
comments. -/
def processVideo (me : MetaEnv) (te : TranscriptEnv) (hasApiKey : Bool) (q : VideoQuery) :
    Except (List Char) (VideoInfo × Option (List Char) × Option (List (List Char))) :=
  match extractVideoId q.url with
  | none => .error (strL "Could not extract video ID from URL")
  | some vid =>
    .ok (getVideoInfo me vid q.url,
      getTranscript te vid q.language q.maxTranscriptLength,
      if q.includeComments then getComments hasApiKey else none)

/-- C1: with a configured maximum `M > 0`, a formatted transcript longer
than `M` is returned as exactly its first `M` characters followed by the
fixed truncation marker (so the result has length `M + len(marker)` and
carries the marker at the tail); a transcript of length at most `M` is
returned unchanged; and a successful fetch never fails on an oversized
transcript — it still returns a transcript. -/
theorem transcript_truncation (M : Nat) (text : List Char) (hM : 0 < M) :
    (M < text.length →
      truncateTranscript M text = text.take M ++ transcriptMarker ∧
      (truncateTranscript M text).length = M + transcriptMarker.length ∧
      (truncateTranscript M text).drop M = transcriptMarker) ∧
    (text.length ≤ M → truncateTranscript M text = text) ∧
    (∀ (te : TranscriptEnv) (vid lang : List Char) (segs : List (List Char)),
      te.apiAvailable = true → te.formatterAvailable = true →
      te.fetchDirect = .ok segs →
      getTranscript te vid lang M = some (truncateTranscript M (te.format segs))) := by
  refine ⟨fun h => ?_, fun h => ?_, fun te vid lang segs h1 h2 h3 => ?_⟩
  · have hcond : M ≠ 0 ∧ M < text.length := ⟨Nat.pos_iff_ne_zero.mp hM, h⟩
    have heq : truncateTranscript M text = text.take M ++ transcriptMarker := by
      unfold truncateTranscript
      rw [if_pos hcond]
    have hlen : (text.take M).length = M := by
      rw [List.length_take]
      exact Nat.min_eq_left (Nat.le_of_lt h)
    refine ⟨heq, ?_, ?_⟩
    · rw [heq, List.length_append, hlen]
    · rw [heq]
      have := List.drop_left (text.take M) transcriptMarker
      rw [hlen] at this
      exact this
  · unfold truncateTranscript
    rw [if_neg]
    intro hcond
    exact absurd hcond.2 (Nat.not_lt.mpr h)
  · simp [getTranscript, h1, h2, h3]

theorem transcript_truncation_witness :
    truncateTranscript 100 (List.replicate 101 'a') =
      (List.replicate 101 'a').take 100 ++ transcriptMarker ∧
    (truncateTranscript 100 (List.replicate 101 'a')).length = 100 + transcriptMarker.length ∧
    (truncateTranscript 100 (List.replicate 101 'a')).drop 100 = transcriptMarker :=
  (transcript_truncation 100 (List.replicate 101 'a') (by decide)).1 (by decide)

/-- C2: when the primary metadata provider (yt-dlp) raises or is
unavailable and the secondary (pytube) also raises or is unavailable,
`_get_video_info` returns, without raising, exactly the deterministic
placeholder record built from the id and URL. -/
theorem metadata_placeholder (me : MetaEnv) (vid url : List Char)
    (h1 : ∀ i, me.ytDlp ≠ some (.ok i))
    (h2 : ∀ i, me.pytube ≠ some (.ok i)) :
    getVideoInfo me vid url =
      { title := strL "Video " ++ vid
      , description := strL "Description not available"
      , duration := 0
      , viewCount := none
      , channel := strL "Unknown Channel"
      , uploadDate := none
      , url := url
      , videoId := vid
      , thumbnailUrl := some (strL "https://img.youtube.com/vi/" ++ vid ++
          strL "/maxresdefault.jpg") } := by
  have hgoal : getVideoInfo me vid url = fallbackInfo vid url := by
    unfold getVideoInfo
    rcases hy : me.ytDlp with _ | (e | i)
    · rcases hp : me.pytube with _ | (e' | i')
      · simp
      · simp
      · exact absurd hp (h2 i')
    · rcases hp : me.pytube with _ | (e' | i')
      · simp
      · simp
      · exact absurd hp (h2 i')
    · exact absurd hy (h1 i)
  rw [hgoal]
  rfl

theorem metadata_placeholder_witness :
    getVideoInfo ⟨some (.error (strL "network down")), none⟩ (strL "dQw4w9WgXcQ")
        (strL "https://www.youtube.com/watch?v=dQw4w9WgXcQ") =
      { title := strL "Video " ++ strL "dQw4w9WgXcQ"
      , description := strL "Description not available"
      , duration := 0
      , viewCount := none
      , channel := strL "Unknown Channel"
      , uploadDate := none
      , url := strL "https://www.youtube.com/watch?v=dQw4w9WgXcQ"
      , videoId := strL "dQw4w9WgXcQ"
      , thumbnailUrl := some (strL "https://img.youtube.com/vi/" ++ strL "dQw4w9WgXcQ" ++
          strL "/maxresdefault.jpg") } :=
  metadata_placeholder ⟨some (.error (strL "network down")), none⟩ _ _
    (by intro i hc; simp at hc) (by intro i hc; simp at hc)

/-- C3: if the transcript provider raises at every tier of the fallback
ladder, `_get_transcript` returns `None` without propagating an
exception, and `process_video` still returns its
`(video_info, transcript, comments)` tuple with an absent transcript. -/
theorem transcript_ladder_absent (te : TranscriptEnv) (me : MetaEnv) (hasApiKey : Bool)
    (q : VideoQuery)
    (hd : ∃ e, te.fetchDirect = .error e)
    (hlad : (∃ e, te.listTranscripts = .error e) ∨
      ∃ tl, te.listTranscripts = .ok tl ∧ (∃ e, tl.findManual = .error e) ∧
        (∃ e, tl.findGenerated = .error e) ∧ (∃ e, tl.findEnglish = .error e)) :
    (∀ (vid lang : List Char) (M : Nat), getTranscript te vid lang M = none) ∧
    (∀ vid, extractVideoId q.url = some vid →
      processVideo me te hasApiKey q =
        .ok (getVideoInfo me vid q.url, none,
          if q.includeComments then getComments hasApiKey else none)) := by
  obtain ⟨e0, hde⟩ := hd
  have hnone : ∀ (vid lang : List Char) (M : Nat), getTranscript te vid lang M = none := by
    intro vid lang M
    unfold getTranscript
    split
    · rfl
    · split
      · rfl
      · rcases hlad with ⟨e1, hl⟩ | ⟨tl, hl, ⟨em, hm⟩, ⟨eg, hg⟩, ⟨ee, he⟩⟩
        · simp [hde, hl]
        · simp [hde, hl, hm, hg, he]
  refine ⟨hnone, fun vid hvid => ?_⟩
  unfold processVideo
  rw [hvid]
  simp only [hnone]

theorem transcript_ladder_absent_witness :
    getTranscript ⟨true, true, .error (strL "blocked"), .error (strL "blocked"), fun _ => []⟩
      (strL "dQw4w9WgXcQ") (strL "en") 10000 = none ∧
    processVideo ⟨none, none⟩
      ⟨true, true, .error (strL "blocked"), .error (strL "blocked"), fun _ => []⟩ false
      ⟨strL "https://www.youtube.com/watch?v=dQw4w9WgXcQ", 10000, false, strL "en"⟩ =
      .ok (getVideoInfo ⟨none, none⟩ (strL "dQw4w9WgXcQ")
          (strL "https://www.youtube.com/watch?v=dQw4w9WgXcQ"), none,
        if false then getComments false else none) := by
  have h := transcript_ladder_absent
    ⟨true, true, .error (strL "blocked"), .error (strL "blocked"), fun _ => []⟩
    ⟨none, none⟩ false
    ⟨strL "https://www.youtube.com/watch?v=dQw4w9WgXcQ", 10000, false, strL "en"⟩
    ⟨strL "blocked", rfl⟩ (Or.inl ⟨strL "blocked", rfl⟩)
  exact ⟨h.1 (strL "dQw4w9WgXcQ") (strL "en") 10000, h.2 (strL "dQw4w9WgXcQ") (by decide)⟩

/-! ## Synchronous processing path (src/server/query_processor.py) -/

/-- `MAX_DISPLAY_SIZE` from server_config.py. -/
def MAX_DISPLAY_SIZE : Nat := 300000

/-- Provider call counters used to state "no provider is invoked". -/
structure SyncCalls where
  metadataCalls : Nat
  transcriptCalls : Nat
  commentsCalls : Nat
deriving DecidableEq

/-- The response context dict assembled by `process_query_core`. -/
structure Context where
  content : Option (List Char)
  contentUrl : Option (List Char)
  errorMessage : Option (List Char)
  result : Bool
  videoInfo : Option VideoInfo
deriving DecidableEq

/-- The context as initialised before the `try` block. -/
def initContext : Context := ⟨none, none, none, false, none⟩

/-- `_extract_video_id_from_url` in query_processor.py. -/
def extractVideoIdFromUrl (url : List Char) : Option (List Char) :=
  if lendsWith (strL "youtube.com") (pyUrlparse url).1 && (pyUrlparse url).2.1 == strL "/watch" then
    qsGetV (pyUrlparse url).2.2
  else if (pyUrlparse url).1 == strL "youtu.be" then
    if ((pyUrlparse url).2.1).dropWhile (· == '/') = [] then none
    else some (((pyUrlparse url).2.1).dropWhile (· == '/'))
  else none

/-- The domain-specific rewriting of a caught exception message in the
`except` block of `process_query` / `process_query_core`. -/
def rewriteError (exc : List Char) : List Char :=
  if containsSub (strL "not available") (lowerStr exc) then
    strL "Video not available. Please check that the video is public and the URL is correct."
  else if containsSub (strL "transcript") (lowerStr exc) then
    strL "Transcript not available for this video. Try a different video or check if captions are enabled."
  else strL "Error processing video: " ++ exc

/-- Environment of the synchronous path: provider outcomes, the outcome
of `_generate_documentation` (which can raise through tiktoken), and
`upload_markdown_to_s3` (which returns the URL or `None`, never
raising). -/
structure SyncEnv where
  me : MetaEnv
  te : TranscriptEnv
  hasApiKey : Bool
  docGen : VideoInfo → Option (List Char) → Option (List (List Char)) → Bool →
    Except (List Char) (List Char)
  upload : List Char → List Char → Option (List Char)

/-- Local-content cropping when the upload returns no URL. -/
def croppedContent (md : List Char) : List Char :=
  if MAX_DISPLAY_SIZE < md.length then
    strL "(Content cropped to 300k characters)\n" ++ md.take MAX_DISPLAY_SIZE
  else md

/-- The fallible body of `process_query_core` (everything inside its
`try`), instrumented with provider call counts. -/
def runPipeline (env : SyncEnv) (inputText : List Char) (maxLen : Nat) (inc : Bool)
    (lang : List Char) : Except (List Char) Context × SyncCalls :=
  match mkVideoQuery inputText maxLen inc lang with
  | .error e => (.error e, ⟨0, 0, 0⟩)
  | .ok q =>
    match extractVideoId q.url with
    | none => (.error (strL "Could not extract video ID from URL"), ⟨0, 0, 0⟩)
    | some vid =>
      match env.docGen (getVideoInfo env.me vid q.url)
          (getTranscript env.te vid q.language q.maxTranscriptLength)
          (if q.includeComments then getComments env.hasApiKey else none)
          q.includeComments with
      | .error e => (.error e, ⟨1, 1, if q.includeComments then 1 else 0⟩)
      | .ok md =>
        match env.upload md
            (match (if (getVideoInfo env.me vid q.url).videoId ≠ [] then
                some (getVideoInfo env.me vid q.url).videoId
              else extractVideoIdFromUrl inputText) with
            | some k => strL "docs/youtube/" ++ k ++ strL ".md"
            | none => strL "docs/youtube/unknown.md") with
        | some curl =>
          (.ok ⟨none, some curl, none, true, some (getVideoInfo env.me vid q.url)⟩,
            ⟨1, 1, if q.includeComments then 1 else 0⟩)
        | none =>
          (.ok ⟨some (croppedContent md), none, none, true,
              some (getVideoInfo env.me vid q.url)⟩,
            ⟨1, 1, if q.includeComments then 1 else 0⟩)

/-- `process_query_core`: the outer boundary catches every raise from
the body and stores a rewritten user-facing message in
`error_message`, never re-raising. -/
def processQueryCore (env : SyncEnv) (inputText : List Char) (maxLen : Nat) (inc : Bool)
    (lang : List Char) : Context × SyncCalls :=
  match runPipeline env inputText maxLen inc lang with
  | (.ok ctx, calls) => (ctx, calls)
  | (.error exc, calls) =>
    (⟨none, none, some (rewriteError exc), false, none⟩, calls)

/-- C4: for an input URL with no extractable 11-character id, or for a
`max_transcript_length` below 100, `VideoQuery` construction raises the
validation error and no metadata, transcript or comments provider is
invoked. -/
theorem invalid_query_rejected_before_providers (env : SyncEnv) (inputText : List Char)
    (maxLen : Nat) (inc : Bool) (lang : List Char)
    (h : extractVideoId inputText = none ∨ maxLen < 100) :
    (∃ e, mkVideoQuery inputText maxLen inc lang = .error e) ∧
    (runPipeline env inputText maxLen inc lang).2 = ⟨0, 0, 0⟩ := by
  have herr : ∃ e, mkVideoQuery inputText maxLen inc lang = .error e := by
    rcases h with hx | hlen
    · have hval : isValidYoutubeUrl inputText = false := by
        unfold isValidYoutubeUrl; rw [hx]; rfl
      refine ⟨strL "Invalid YouTube URL format", ?_⟩
      unfold mkVideoQuery
      rw [if_pos (by simp [hval])]
    · by_cases hval : isValidYoutubeUrl inputText = true
      · refine ⟨strL "Transcript length must be at least 100 characters", ?_⟩
        unfold mkVideoQuery
        rw [if_neg (by simp [hval]), if_pos hlen]
      · refine ⟨strL "Invalid YouTube URL format", ?_⟩
        unfold mkVideoQuery
        rw [if_pos hval]
  obtain ⟨e, he⟩ := herr
  refine ⟨⟨e, he⟩, ?_⟩
  unfold runPipeline
  rw [he]

theorem invalid_query_rejected_before_providers_witness :
    (∃ e, mkVideoQuery (strL "not-a-url") 10000 false (strL "en") = .error e) ∧
    (runPipeline
      ⟨⟨none, none⟩, ⟨true, true, .error [], .error [], fun _ => []⟩, false,
        fun _ _ _ _ => .ok [], fun _ _ => none⟩
      (strL "not-a-url") 10000 false (strL "en")).2 = ⟨0, 0, 0⟩ :=
  invalid_query_rejected_before_providers
    ⟨⟨none, none⟩, ⟨true, true, .error [], .error [], fun _ => []⟩, false,
      fun _ _ _ _ => .ok [], fun _ _ => none⟩
    (strL "not-a-url") 10000 false (strL "en") (Or.inl (by decide))

/-- C9: every exception caught at the outer boundary of the synchronous
path yields a normal return whose `error_message` is the
unavailable-video explanation when the lower-cased message contains
"not available", else the captions explanation when it contains
"transcript", else the generic
`"Error processing video: {exc}"` message — never a re-raise. -/
theorem error_message_rewrite (env : SyncEnv) (inputText : List Char) (maxLen : Nat)
    (inc : Bool) (lang : List Char) (exc : List Char) (calls : SyncCalls)
    (h : runPipeline env inputText maxLen inc lang = (.error exc, calls)) :
    (processQueryCore env inputText maxLen inc lang).1.errorMessage = some (
      if containsSub (strL "not available") (lowerStr exc) then
        strL "Video not available. Please check that the video is public and the URL is correct."
      else if containsSub (strL "transcript") (lowerStr exc) then
        strL "Transcript not available for this video. Try a different video or check if captions are enabled."
      else strL "Error processing video: " ++ exc) ∧
    (processQueryCore env inputText maxLen inc lang).1.result = false := by
  unfold processQueryCore
  rw [h]
  exact ⟨rfl, rfl⟩

theorem error_message_rewrite_witness :
    (processQueryCore
      ⟨⟨none, none⟩, ⟨true, true, .error [], .error [], fun _ => []⟩, false,
        fun _ _ _ _ => .ok [], fun _ _ => none⟩
      (strL "not-a-url") 10000 false (strL "en")).1.errorMessage = some (
      if containsSub (strL "not available") (lowerStr (strL "Invalid YouTube URL format")) then
        strL "Video not available. Please check that the video is public and the URL is correct."
      else if containsSub (strL "transcript") (lowerStr (strL "Invalid YouTube URL format")) then
        strL "Transcript not available for this video. Try a different video or check if captions are enabled."
      else strL "Error processing video: " ++ strL "Invalid YouTube URL format") ∧
    (processQueryCore
      ⟨⟨none, none⟩, ⟨true, true, .error [], .error [], fun _ => []⟩, false,
        fun _ _ _ _ => .ok [], fun _ _ => none⟩
      (strL "not-a-url") 10000 false (strL "en")).1.result = false :=
  error_message_rewrite
    ⟨⟨none, none⟩, ⟨true, true, .error [], .error [], fun _ => []⟩, false,
      fun _ _ _ _ => .ok [], fun _ _ => none⟩
    (strL "not-a-url") 10000 false (strL "en") (strL "Invalid YouTube URL format")
    ⟨0, 0, 0⟩ rfl

/-! ## Streaming path (src/server/routers/dynamic.py, `stream_process`) -/

/-- Environment of one streaming run: outcomes of the awaited calls
(`check_cached_documentation` import+call, `_get_video_info`,
`_get_transcript`, `_generate_documentation`, and the upload step). -/
structure StreamEnv where
  cacheCheck : Except (List Char) (Option (List Char))
  metaResult : Except (List Char) VideoInfo
  transcriptResult : Except (List Char) (Option (List Char))
  docGen : Except (List Char) (List Char)
  upload : Except (List Char) (Option (List Char))
deriving DecidableEq

/-- The `status` values emitted over the SSE stream. -/
inductive EvStatus where
  | connected
  | urlValidation
  | urlValidated
  | error
  | cacheCheck
  | cacheMiss
  | videoMetadata
  | videoMetadataDone
  | transcriptProcessing
  | transcriptDone
  | transcriptSkipped
  | docGeneration
  | docGenerated
  | s3Upload
  | complete
deriving DecidableEq

/-- One SSE event record with its payload keys. -/
structure Event where
  status : EvStatus
  message : List Char := []
  videoId : Option (List Char) := none
  title : Option (List Char) := none
  length : Option Nat := none
  size : Option Nat := none
  contentUrl : Option (List Char) := none
  content : Option (List Char) := none
  cached : Option Bool := none
  error : Option (List Char) := none
deriving DecidableEq

/-- Result of one streaming run: the emitted events in order plus how
often the metadata and transcript providers were invoked. -/
structure StreamOut where
  events : List Event
  metadataCalls : Nat
  transcriptCalls : Nat
deriving DecidableEq

/-- The part of `event_generator` after a cache miss (both the
`cache_miss` from a miss and from a failed cache check continue here,
with different messages). -/
def streamRest (env : StreamEnv) (vid missMsg : List Char) : StreamOut :=
  match env.metaResult with
  | .error e =>
    ⟨[{ status := .connected, message := strL "Connection established" },
      { status := .urlValidation, message := strL "Validating URL..." },
      { status := .urlValidated, message := strL "URL validated", videoId := some vid },
      { status := .cacheCheck, message := strL "Checking cache..." },
      { status := .cacheMiss, message := missMsg },
      { status := .videoMetadata, message := strL "Extracting video metadata..." },
      { status := .error, error := some (strL "Metadata error: " ++ e) }], 1, 0⟩
  | .ok info =>
    ⟨[{ status := .connected, message := strL "Connection established" },
      { status := .urlValidation, message := strL "Validating URL..." },
      { status := .urlValidated, message := strL "URL validated", videoId := some vid },
      { status := .cacheCheck, message := strL "Checking cache..." },
      { status := .cacheMiss, message := missMsg },
      { status := .videoMetadata, message := strL "Extracting video metadata..." },
      { status := .videoMetadataDone, message := strL "Video metadata extracted",
        title := some info.title },
      { status := .transcriptProcessing, message := strL "Processing transcript..." }] ++
    (match env.transcriptResult with
      | .ok t =>
        [{ status := .transcriptDone, message := strL "Transcript processed",
           length := some (match t with | some s => s.length | none => 0) }]
      | .error e =>
        [{ status := .transcriptSkipped,
           message := strL "Transcript not available: " ++ e }]) ++
    ({ status := .docGeneration, message := strL "Generating documentation..." } ::
    (match env.docGen with
      | .error e => [{ status := .error, error := some (strL "Generation error: " ++ e) }]
      | .ok content =>
        { status := .docGenerated, message := strL "Documentation generated",
          size := some content.length } ::
        { status := .s3Upload, message := strL "Uploading to cloud storage..." } ::
        (match env.upload with
          | .error e => [{ status := .error, error := some (strL "Upload error: " ++ e) }]
          | .ok (some curl) =>
            [{ status := .complete, message := strL "Upload complete",
               contentUrl := some curl, videoId := some vid }]
          | .ok none =>
            [{ status := .complete, message := strL "Completed with local content",
               content := some content, videoId := some vid }]))), 1, 1⟩

/-- The full `event_generator` of `stream_process`: connection and
URL-validation events, then validation, cache check (a hit
short-circuits with a terminal `complete` carrying `cached: true`),
then metadata → transcript (non-fatal) → doc generation → upload. -/
def eventGenerator (env : StreamEnv) (url : List Char) (maxLen : Nat) (inc : Bool)
    (lang : List Char) : StreamOut :=
  match mkVideoQuery url maxLen inc lang with
  | .error e =>
    ⟨[{ status := .connected, message := strL "Connection established" },
      { status := .urlValidation, message := strL "Validating URL..." },
      { status := .error, error := some (strL "Invalid URL: " ++ e) }], 0, 0⟩
  | .ok q =>
    match extractVideoId q.url with
    | none =>
      ⟨[{ status := .connected, message := strL "Connection established" },
        { status := .urlValidation, message := strL "Validating URL..." },
        { status := .error,
          error := some (strL "Invalid URL: Could not extract video ID from URL") }], 0, 0⟩
    | some vid =>
      match env.cacheCheck with
      | .ok (some curl) =>
        ⟨[{ status := .connected, message := strL "Connection established" },
          { status := .urlValidation, message := strL "Validating URL..." },
          { status := .urlValidated, message := strL "URL validated", videoId := some vid },
          { status := .cacheCheck, message := strL "Checking cache..." },
          { status := .complete, message := strL "Found in cache",
            contentUrl := some curl, videoId := some vid, cached := some true }], 0, 0⟩
      | .ok none => streamRest env vid (strL "Not cached, processing...")
      | .error _ => streamRest env vid (strL "Cache check failed, processing...")

/-- Terminal events of the protocol. -/
def isTerminal (e : Event) : Bool :=
  match e.status with
  | .error => true
  | .complete => true
  | _ => false

/-- Exactly one terminal event occurs and it is the last event. -/
def exactlyOneTerminalAtEnd : List Event → Bool
  | [] => false
  | [e] => isTerminal e
  | e :: rest => !isTerminal e && exactlyOneTerminalAtEnd rest

theorem streamRest_single_terminal (env : StreamEnv) (vid missMsg : List Char) :
    exactlyOneTerminalAtEnd (streamRest env vid missMsg).events = true := by
  obtain ⟨cc, mr, tr, dg, up⟩ := env
  rcases mr with em | info <;>
    rcases tr with et | t <;>
      rcases dg with ed | content <;>
        rcases up with eu | (_ | curl) <;>
          simp [streamRest, exactlyOneTerminalAtEnd, isTerminal]

/-- C5: every event sequence produced by the streaming generator emits
exactly one terminal event (`complete` or `error`), and it is the last
event of the stream. -/
theorem stream_exactly_one_terminal (env : StreamEnv) (url : List Char) (maxLen : Nat)
    (inc : Bool) (lang : List Char) :
    exactlyOneTerminalAtEnd (eventGenerator env url maxLen inc lang).events = true := by
  unfold eventGenerator
  rcases hq : mkVideoQuery url maxLen inc lang with e | q
  · simp [exactlyOneTerminalAtEnd, isTerminal]
  · rcases hx : extractVideoId q.url with _ | vid <;> try simp only [hx]
    · simp [exactlyOneTerminalAtEnd, isTerminal]
    · rcases hc : env.cacheCheck with ec | (_ | curl) <;> try simp only [hc]
      · exact streamRest_single_terminal env vid _
      · exact streamRest_single_terminal env vid _
      · simp [exactlyOneTerminalAtEnd, isTerminal]

/-- C6 (amended): a cache hit produces exactly five events — `connected`,
`url_validation`, `url_validated`, `cache_check`, then a terminal
`complete` carrying `cached: true` — and the metadata and transcript
providers are never invoked. -/
theorem stream_cache_hit_five_events (env : StreamEnv) (url : List Char) (maxLen : Nat)
    (inc : Bool) (lang : List Char) (q : VideoQuery) (vid curl : List Char)
    (hq : mkVideoQuery url maxLen inc lang = .ok q)
    (hx : extractVideoId q.url = some vid)
    (hc : env.cacheCheck = .ok (some curl)) :
    (eventGenerator env url maxLen inc lang).events.map Event.status =
      [.connected, .urlValidation, .urlValidated, .cacheCheck, .complete] ∧
    (eventGenerator env url maxLen inc lang).events.getLast? =
      some { status := .complete, message := strL "Found in cache",
             contentUrl := some curl, videoId := some vid, cached := some true } ∧
    (eventGenerator env url maxLen inc lang).metadataCalls = 0 ∧
    (eventGenerator env url maxLen inc lang).transcriptCalls = 0 := by
  unfold eventGenerator
  simp [hq, hx, hc]

theorem stream_cache_hit_five_events_witness :
    (eventGenerator ⟨.ok (some (strL "u")), .error [], .error [], .error [], .error []⟩
      (strL "https://www.youtube.com/watch?v=dQw4w9WgXcQ") 10000 false
      (strL "en")).events.map Event.status =
      [.connected, .urlValidation, .urlValidated, .cacheCheck, .complete] ∧
    (eventGenerator ⟨.ok (some (strL "u")), .error [], .error [], .error [], .error []⟩
      (strL "https://www.youtube.com/watch?v=dQw4w9WgXcQ") 10000 false
      (strL "en")).events.getLast? =
      some { status := .complete, message := strL "Found in cache",
             contentUrl := some (strL "u"), videoId := some (strL "dQw4w9WgXcQ"),
             cached := some true } ∧
    (eventGenerator ⟨.ok (some (strL "u")), .error [], .error [], .error [], .error []⟩
      (strL "https://www.youtube.com/watch?v=dQw4w9WgXcQ") 10000 false
      (strL "en")).metadataCalls = 0 ∧
    (eventGenerator ⟨.ok (some (strL "u")), .error [], .error [], .error [], .error []⟩
      (strL "https://www.youtube.com/watch?v=dQw4w9WgXcQ") 10000 false
      (strL "en")).transcriptCalls = 0 :=
  stream_cache_hit_five_events
    ⟨.ok (some (strL "u")), .error [], .error [], .error [], .error []⟩
    (strL "https://www.youtube.com/watch?v=dQw4w9WgXcQ") 10000 false (strL "en")
    ⟨strL "https://www.youtube.com/watch?v=dQw4w9WgXcQ", 10000, false, strL "en"⟩
    (strL "dQw4w9WgXcQ") (strL "u") (by decide) (by decide) rfl

/-- C6 as stated is false: a cache hit produces five events, not two.
The claim that the stream produces exactly two events fails at this
concrete input. -/
theorem stream_cache_hit_not_two_events :
    (⟨.ok (some (strL "u")), .error [], .error [], .error [], .error []⟩
        : StreamEnv).cacheCheck = .ok (some (strL "u")) ∧
    (eventGenerator ⟨.ok (some (strL "u")), .error [], .error [], .error [], .error []⟩
      (strL "https://www.youtube.com/watch?v=dQw4w9WgXcQ") 10000 false
      (strL "en")).events.length ≠ 2 := by
  constructor
  · rfl
  · decide

/-- C7: whenever transcript acquisition fails in the streaming path, a
`transcript_skipped` event (carrying the reason) is emitted and the
stream continues directly with the `doc_generation` event — the failure
never terminates the stream at that stage. -/
theorem stream_transcript_skipped_continues (env : StreamEnv) (url : List Char)
    (maxLen : Nat) (inc : Bool) (lang : List Char) (q : VideoQuery) (vid e : List Char)
    (info : VideoInfo)
    (hq : mkVideoQuery url maxLen inc lang = .ok q)
    (hx : extractVideoId q.url = some vid)
    (hc : env.cacheCheck = .ok none ∨ ∃ ce, env.cacheCheck = .error ce)
    (hm : env.metaResult = .ok info)
    (ht : env.transcriptResult = .error e) :
    ∃ pre rest, (eventGenerator env url maxLen inc lang).events =
      pre ++ ({ status := .transcriptSkipped,
                message := strL "Transcript not available: " ++ e } : Event) ::
        ({ status := .docGeneration,
           message := strL "Generating documentation..." } : Event) :: rest ∧
      pre.map Event.status = [.connected, .urlValidation, .urlValidated, .cacheCheck,
        .cacheMiss, .videoMetadata, .videoMetadataDone, .transcriptProcessing] := by
  rcases hc with hcEq | ⟨ce, hcEq⟩
  · simp only [eventGenerator, hq, hx, hcEq, streamRest, hm, ht]
    exact ⟨[{ status := .connected, message := strL "Connection established" },
      { status := .urlValidation, message := strL "Validating URL..." },
      { status := .urlValidated, message := strL "URL validated", videoId := some vid },
      { status := .cacheCheck, message := strL "Checking cache..." },
      { status := .cacheMiss, message := strL "Not cached, processing..." },
      { status := .videoMetadata, message := strL "Extracting video metadata..." },
      { status := .videoMetadataDone, message := strL "Video metadata extracted",
        title := some info.title },
      { status := .transcriptProcessing, message := strL "Processing transcript..." }],
      _, rfl, rfl⟩
  · simp only [eventGenerator, hq, hx, hcEq, streamRest, hm, ht]
    exact ⟨[{ status := .connected, message := strL "Connection established" },
      { status := .urlValidation, message := strL "Validating URL..." },
      { status := .urlValidated, message := strL "URL validated", videoId := some vid },
      { status := .cacheCheck, message := strL "Checking cache..." },
      { status := .cacheMiss, message := strL "Cache check failed, processing..." },
      { status := .videoMetadata, message := strL "Extracting video metadata..." },
      { status := .videoMetadataDone, message := strL "Video metadata extracted",
        title := some info.title },
      { status := .transcriptProcessing, message := strL "Processing transcript..." }],
      _, rfl, rfl⟩

theorem stream_transcript_skipped_continues_witness :
    ∃ pre rest, (eventGenerator
      ⟨.ok none, .ok ⟨strL "T", [], 5, none, [], none, [], strL "dQw4w9WgXcQ", none⟩,
        .error (strL "no captions"), .ok [], .ok none⟩
      (strL "https://www.youtube.com/watch?v=dQw4w9WgXcQ") 10000 false (strL "en")).events =
      pre ++ ({ status := .transcriptSkipped,
                message := strL "Transcript not available: " ++ strL "no captions" } : Event) ::
        ({ status := .docGeneration,
           message := strL "Generating documentation..." } : Event) :: rest ∧
      pre.map Event.status = [.connected, .urlValidation, .urlValidated, .cacheCheck,
        .cacheMiss, .videoMetadata, .videoMetadataDone, .transcriptProcessing] :=
  stream_transcript_skipped_continues
    ⟨.ok none, .ok ⟨strL "T", [], 5, none, [], none, [], strL "dQw4w9WgXcQ", none⟩,
      .error (strL "no captions"), .ok [], .ok none⟩
    (strL "https://www.youtube.com/watch?v=dQw4w9WgXcQ") 10000 false (strL "en")
    ⟨strL "https://www.youtube.com/watch?v=dQw4w9WgXcQ", 10000, false, strL "en"⟩
    (strL "dQw4w9WgXcQ") (strL "no captions")
    ⟨strL "T", [], 5, none, [], none, [], strL "dQw4w9WgXcQ", none⟩
    (by decide) (by decide) (Or.inl rfl) rfl rfl
